import Mathlib

/-!
Verification of the Order_Execution repository core: a shallow embedding of
the DEX router (src/services/dex-router.service.ts), the execution
coordinator (execution.service.ts), the per-order status channel, and the
in-memory job queue (simple-queue.service.ts), together with theorems
settling the frozen claims about them.

Randomness (Math.random) and the injected transaction hash are modelled as
explicit parameters, following the design note of the spec that the random
sources are injectable.  Simulated delays (setTimeout) have no observable
effect on the properties at issue and are not modelled as time.
-/

namespace OrderExec

/-- Order lifecycle statuses, from the OrderStatus enum in order.model.ts. -/
inductive OrderStatus
  | pending
  | routing
  | building
  | submitted
  | confirmed
  | failed
deriving DecidableEq, Repr

/-- Order kinds, from the OrderType enum in order.model.ts. -/
inductive OrderType
  | market
  | limit
  | sniper
deriving DecidableEq, Repr

/-- The two configured venues of MockDexRouter. -/
inductive Dex
  | raydium
  | meteora
deriving DecidableEq, Repr

/-- String name of a venue, as interpolated into log and error messages. -/
def dexName : Dex → String
  | .raydium => "raydium"
  | .meteora => "meteora"

/-- The Order interface of order.model.ts.  Prices and amounts are numbers in
the source and are embedded as rationals; the Date timestamps carry no logic
and are omitted. -/
structure Order where
  id : String
  type : OrderType
  tokenIn : String
  tokenOut : String
  amountIn : ℚ
  slippage : ℚ
  status : OrderStatus
  selectedDex : Option Dex := none
  raydiumQuote : Option ℚ := none
  meteoraQuote : Option ℚ := none
  executedPrice : Option ℚ := none
  outputAmount : Option ℚ := none
  txHash : Option String := none
  error : Option String := none
  retryCount : Nat := 0
deriving DecidableEq, Repr

/-- The DexQuote interface of order.model.ts (timestamp omitted). -/
structure DexQuote where
  dex : Dex
  price : ℚ
  fee : ℚ
  estimatedOutput : ℚ
deriving DecidableEq, Repr

/-- The ExecutionResult interface of order.model.ts. -/
structure ExecutionResult where
  success : Bool
  txHash : Option String := none
  executedPrice : Option ℚ := none
  outputAmount : Option ℚ := none
  error : Option String := none
deriving DecidableEq, Repr

/-! ### MockDexRouter (src/services/dex-router.service.ts) -/

/-- Coercion of an integer to the signed 32-bit range, as JavaScript ToInt32
performed by the bitwise operators in simpleHash. -/
def toInt32 (n : Int) : Int :=
  (n + 2 ^ 31) % 2 ^ 32 - 2 ^ 31

/-- One loop iteration of MockDexRouter.simpleHash:
hash = ((hash << 5) - hash) + charCode, coerced back to 32 bits by
hash = hash & hash. -/
def hashStep (h : Int) (c : Nat) : Int :=
  toInt32 (toInt32 (h * 32) - h + c)

/-- MockDexRouter.simpleHash: folds hashStep over the character codes of the
string starting from 0 and returns Math.abs of the result. -/
def simpleHash (s : String) : Nat :=
  (s.data.map Char.toNat |>.foldl hashStep 0).natAbs

/-- MockDexRouter.calculateBasePrice: 1.0 + (hash % 100) / 100. -/
def calculateBasePrice (tokenIn tokenOut : String) : ℚ :=
  1 + ((simpleHash (tokenIn ++ tokenOut) % 100 : ℕ) : ℚ) / 100

/-- MockDexRouter.getRaydiumQuote with the Math.random draw (a value in
[0,1)) passed in as rand: variance = 0.98 + rand * 0.04, fee 0.3 percent,
estimatedOutput = amount * price * (1 - fee). -/
def getRaydiumQuote (tokenIn tokenOut : String) (amount rand : ℚ) : DexQuote :=
  let basePrice := calculateBasePrice tokenIn tokenOut
  let variance := 98 / 100 + rand * (4 / 100)
  let price := basePrice * variance
  let fee : ℚ := 3 / 1000
  { dex := .raydium
    price := price
    fee := fee
    estimatedOutput := amount * price * (1 - fee) }

/-- MockDexRouter.getMeteorQuote with the Math.random draw passed in as
rand: variance = 0.97 + rand * 0.05, fee 0.2 percent. -/
def getMeteorQuote (tokenIn tokenOut : String) (amount rand : ℚ) : DexQuote :=
  let basePrice := calculateBasePrice tokenIn tokenOut
  let variance := 97 / 100 + rand * (5 / 100)
  let price := basePrice * variance
  let fee : ℚ := 2 / 1000
  { dex := .meteora
    price := price
    fee := fee
    estimatedOutput := amount * price * (1 - fee) }

/-- Result record of MockDexRouter.getBestQuote. -/
structure BestQuoteResult where
  best : DexQuote
  raydium : DexQuote
  meteora : DexQuote
deriving DecidableEq, Repr

/-- MockDexRouter.getBestQuote: obtains both venue quotes (their Math.random
draws passed as randR and randM) and picks
raydiumQuote.estimatedOutput > meteoraQuote.estimatedOutput ? raydiumQuote
: meteoraQuote. -/
def getBestQuote (tokenIn tokenOut : String) (amount randR randM : ℚ) :
    BestQuoteResult :=
  let raydiumQuote := getRaydiumQuote tokenIn tokenOut amount randR
  let meteoraQuote := getMeteorQuote tokenIn tokenOut amount randM
  let bestQuote :=
    if meteoraQuote.estimatedOutput < raydiumQuote.estimatedOutput then
      raydiumQuote
    else
      meteoraQuote
  { best := bestQuote, raydium := raydiumQuote, meteora := meteoraQuote }

/-- The body of the try block of MockDexRouter.executeSwap.  randFail is the
Math.random draw compared against the 5 percent failure probability;
randSlip is the slippage draw; txHash the generated receipt id.  A thrown
error is an Except.error.  The source reads order.executedPrice with a
non-null assertion; this never throws in JavaScript and is embedded by
mapping over the optional field. -/
def swapBody (dex : Dex) (order : Order) (randFail randSlip : ℚ)
    (txHash : String) : Except String ExecutionResult :=
  if randFail < 5 / 100 then
    .error (dexName dex ++ " execution failed: Network timeout")
  else
    let executedPrice :=
      order.executedPrice.map (fun p => p * (1 - randSlip * (order.slippage / 100)))
    let outputAmount := executedPrice.map (fun p => order.amountIn * p)
    .ok { success := true
          txHash := some txHash
          executedPrice := executedPrice
          outputAmount := outputAmount
          error := none }

/-- MockDexRouter.executeSwap: the catch clause converts any thrown error
into a result with success = false carrying the error message. -/
def executeSwap (dex : Dex) (order : Order) (randFail randSlip : ℚ)
    (txHash : String) : ExecutionResult :=
  match swapBody dex order randFail randSlip txHash with
  | .ok r => r
  | .error e => { success := false, error := some e }

/-- A fixed sample order used to instantiate witnesses and counterexamples. -/
def sampleOrder : Order :=
  { id := "o-1"
    type := .market
    tokenIn := "SOL"
    tokenOut := "USDC"
    amountIn := 100
    slippage := 1
    status := .pending }

/-! ### Theorems for the router claims -/

/-- C6: for every token pair and positive amount (and any random draws), the
best quote returned by getBestQuote has estimatedOutput equal to the maximum
of the raydium and meteora estimatedOutput, and the best quote is one of
those two per-venue quotes. -/
theorem bestQuote_is_max (tokenIn tokenOut : String) (amount randR randM : ℚ)
    (hamount : 0 < amount) :
    (getBestQuote tokenIn tokenOut amount randR randM).best.estimatedOutput =
      max (getBestQuote tokenIn tokenOut amount randR randM).raydium.estimatedOutput
        (getBestQuote tokenIn tokenOut amount randR randM).meteora.estimatedOutput ∧
    ((getBestQuote tokenIn tokenOut amount randR randM).best =
        (getBestQuote tokenIn tokenOut amount randR randM).raydium ∨
      (getBestQuote tokenIn tokenOut amount randR randM).best =
        (getBestQuote tokenIn tokenOut amount randR randM).meteora) := by
  by_cases h :
      (getMeteorQuote tokenIn tokenOut amount randM).estimatedOutput <
        (getRaydiumQuote tokenIn tokenOut amount randR).estimatedOutput
  · simp only [getBestQuote, if_pos h]
    exact ⟨(max_eq_left h.le).symm, Or.inl trivial⟩
  · simp only [getBestQuote, if_neg h]
    exact ⟨(max_eq_right (not_lt.mp h)).symm, Or.inr trivial⟩

/-- Witness for bestQuote_is_max at a concrete input. -/
theorem bestQuote_is_max_witness :
    (0 : ℚ) < 100 ∧
    ((getBestQuote "SOL" "USDC" 100 (1 / 2) (1 / 2)).best.estimatedOutput =
      max (getBestQuote "SOL" "USDC" 100 (1 / 2) (1 / 2)).raydium.estimatedOutput
        (getBestQuote "SOL" "USDC" 100 (1 / 2) (1 / 2)).meteora.estimatedOutput ∧
     ((getBestQuote "SOL" "USDC" 100 (1 / 2) (1 / 2)).best =
        (getBestQuote "SOL" "USDC" 100 (1 / 2) (1 / 2)).raydium ∨
      (getBestQuote "SOL" "USDC" 100 (1 / 2) (1 / 2)).best =
        (getBestQuote "SOL" "USDC" 100 (1 / 2) (1 / 2)).meteora)) :=
  ⟨by norm_num, bestQuote_is_max "SOL" "USDC" 100 (1 / 2) (1 / 2) (by norm_num)⟩

/-- The base price is at least 1, hence strictly positive. -/
lemma one_le_calculateBasePrice (tokenIn tokenOut : String) :
    1 ≤ calculateBasePrice tokenIn tokenOut := by
  unfold calculateBasePrice
  have h : (0 : ℚ) ≤ ((simpleHash (tokenIn ++ tokenOut) % 100 : ℕ) : ℚ) / 100 := by
    positivity
  linarith

/-- C8: for every token pair and positive amountIn, with the random draw in
[0,1), each per-venue quote satisfies
estimatedOutput = amountIn * price * (1 - fee) with strictly positive price
and strictly positive estimatedOutput. -/
theorem venue_quote_formula_and_positive (tokenIn tokenOut : String)
    (amount rand : ℚ) (hamount : 0 < amount) (hr0 : 0 ≤ rand) (hr1 : rand < 1) :
    (let q := getRaydiumQuote tokenIn tokenOut amount rand
     q.estimatedOutput = amount * q.price * (1 - q.fee) ∧
       0 < q.price ∧ 0 < q.estimatedOutput) ∧
    (let q := getMeteorQuote tokenIn tokenOut amount rand
     q.estimatedOutput = amount * q.price * (1 - q.fee) ∧
       0 < q.price ∧ 0 < q.estimatedOutput) := by
  have hbase : 1 ≤ calculateBasePrice tokenIn tokenOut :=
    one_le_calculateBasePrice tokenIn tokenOut
  have hbase0 : 0 < calculateBasePrice tokenIn tokenOut :=
    lt_of_lt_of_le one_pos hbase
  have hvarR : (0 : ℚ) < 98 / 100 + rand * (4 / 100) := by nlinarith
  have hvarM : (0 : ℚ) < 97 / 100 + rand * (5 / 100) := by nlinarith
  constructor
  · refine ⟨rfl, ?_, ?_⟩
    · exact mul_pos hbase0 hvarR
    · show (0 : ℚ) <
        amount * (calculateBasePrice tokenIn tokenOut * (98 / 100 + rand * (4 / 100))) *
          (1 - 3 / 1000)
      exact mul_pos (mul_pos hamount (mul_pos hbase0 hvarR)) (by norm_num)
  · refine ⟨rfl, ?_, ?_⟩
    · exact mul_pos hbase0 hvarM
    · show (0 : ℚ) <
        amount * (calculateBasePrice tokenIn tokenOut * (97 / 100 + rand * (5 / 100))) *
          (1 - 2 / 1000)
      exact mul_pos (mul_pos hamount (mul_pos hbase0 hvarM)) (by norm_num)

/-- Witness for venue_quote_formula_and_positive at a concrete input. -/
theorem venue_quote_formula_and_positive_witness :
    ((0 : ℚ) < 100 ∧ (0 : ℚ) ≤ 1 / 2 ∧ (1 / 2 : ℚ) < 1) ∧
    ((let q := getRaydiumQuote "SOL" "USDC" 100 (1 / 2)
      q.estimatedOutput = 100 * q.price * (1 - q.fee) ∧
        0 < q.price ∧ 0 < q.estimatedOutput) ∧
     (let q := getMeteorQuote "SOL" "USDC" 100 (1 / 2)
      q.estimatedOutput = 100 * q.price * (1 - q.fee) ∧
        0 < q.price ∧ 0 < q.estimatedOutput)) :=
  ⟨⟨by norm_num, by norm_num, by norm_num⟩,
   venue_quote_formula_and_positive "SOL" "USDC" 100 (1 / 2)
     (by norm_num) (by norm_num) (by norm_num)⟩

/-- C9: executeSwap is a total function (every throw inside the attempt is
caught at the boundary): whenever the attempt body throws an error, the
returned result has success = false and carries that error message, and
whenever the returned result has success = false it carries an error
description. -/
theorem executeSwap_never_throws (dex : Dex) (order : Order)
    (randFail randSlip : ℚ) (txHash : String) :
    (∀ e, swapBody dex order randFail randSlip txHash = .error e →
      (executeSwap dex order randFail randSlip txHash).success = false ∧
      (executeSwap dex order randFail randSlip txHash).error = some e) ∧
    ((executeSwap dex order randFail randSlip txHash).success = false →
      (executeSwap dex order randFail randSlip txHash).error.isSome) := by
  constructor
  · intro e he
    simp [executeSwap, he]
  · intro hfail
    unfold executeSwap at hfail ⊢
    unfold swapBody at hfail ⊢
    by_cases h : randFail < 5 / 100
    · simp [if_pos h]
    · simp [if_neg h] at hfail

/-- Witness for executeSwap_never_throws at a concrete failing draw. -/
theorem executeSwap_never_throws_witness :
    (executeSwap .raydium sampleOrder 0 0 "tx").success = false ∧
    (executeSwap .raydium sampleOrder 0 0 "tx").error =
      some "raydium execution failed: Network timeout" :=
  (executeSwap_never_throws .raydium sampleOrder 0 0 "tx").1
    "raydium execution failed: Network timeout"
    (by simp only [swapBody, dexName]
        rw [if_pos (by norm_num)]
        rfl)

/-! ### Status channel (ExecutionService as EventEmitter)

ExecutionService extends EventEmitter; subscribeToOrder registers a
listener for the event name derived from the order id, and emitStatusUpdate
publishes a status event to the listeners of that name.  Node EventEmitter
invokes the listeners synchronously in registration order, and a listener
that throws aborts emit with that exception, so listeners registered after
it are not invoked.  A callback is modelled as a function returning a Bool:
true when the call returns normally, false when it throws. -/

/-- The OrderStatusUpdate interface of order.model.ts (payload data and
timestamp omitted; only the identity and status carry logic here). -/
structure OrderStatusUpdate where
  orderId : String
  status : OrderStatus
  message : Option String := none

/-- A subscriber callback; false models a callback that throws. -/
abbrev Callback := OrderStatusUpdate → Bool

/-- The per-order listener registry of the shared EventEmitter, in
registration order.  Each subscribeToOrder call appends one entry. -/
abbrev StatusHub := List (String × Callback)

/-- ExecutionService.subscribeToOrder: registers a listener for the given
order id at the back of the registry. -/
def subscribeToOrder (hub : StatusHub) (orderId : String) (cb : Callback) :
    StatusHub :=
  hub ++ [(orderId, cb)]

/-- The listeners currently registered for an order id, in registration
order, as EventEmitter holds them for the event name of that order. -/
def listenersFor (hub : StatusHub) (orderId : String) : List Callback :=
  (hub.filter (fun p => p.1 == orderId)).map (fun p => p.2)

/-- EventEmitter.emit: invokes the listeners in order; the first component
collects the callbacks actually invoked, and the second is true when no
listener threw.  A throwing listener ends delivery at once. -/
def emitToListeners : List Callback → OrderStatusUpdate → List Callback × Bool
  | [], _ => ([], true)
  | c :: rest, e =>
    if c e then
      let r := emitToListeners rest e
      (c :: r.1, r.2)
    else
      ([c], false)

/-- ExecutionService.emitStatusUpdate restricted to the per-order event
name: publishes the event to the listeners registered for its order id. -/
def publish (hub : StatusHub) (e : OrderStatusUpdate) : List Callback × Bool :=
  emitToListeners (listenersFor hub e.orderId) e

/-- A callback that returns normally on every event. -/
def okCb : Callback := fun _ => true

/-- A callback that throws on every event. -/
def throwingCb : Callback := fun _ => false

/-- A registry with a throwing callback subscribed before a normal one,
both for the same order id. -/
def hubThrowFirst : StatusHub := [("o-1", throwingCb), ("o-1", okCb)]

/-- A registry with a single normal callback. -/
def hubOk : StatusHub := [("o-1", okCb)]

/-- A sample status event for order o-1. -/
def sampleEvent : OrderStatusUpdate :=
  { orderId := "o-1", status := .pending }

/-- Counterexample to C3 as stated: with two callbacks subscribed to the
order and the first one throwing, publish invokes only one of the two, so
the remaining callback does not receive the event. -/
theorem publish_throw_blocks_later_callbacks_cex :
    (listenersFor hubThrowFirst sampleEvent.orderId).length = 2 ∧
    (publish hubThrowFirst sampleEvent).1.length = 1 := by
  constructor <;> rfl

/-- C3 amended: publish delivers the event, in registration order, to every
callback subscribed to the order id when none of them throws; when some
callback throws, exactly the callbacks up to and including the first
throwing one are invoked, the later ones are not, and the failure
propagates out of publish. -/
theorem publish_delivers_in_order (hub : StatusHub) (e : OrderStatusUpdate) :
    ((∀ c ∈ listenersFor hub e.orderId, c e = true) →
      publish hub e = (listenersFor hub e.orderId, true)) ∧
    (∀ pre c post, listenersFor hub e.orderId = pre ++ c :: post →
      (∀ c2 ∈ pre, c2 e = true) → c e = false →
      publish hub e = (pre ++ [c], false)) := by
  have hall : ∀ (cbs : List Callback), (∀ c ∈ cbs, c e = true) →
      emitToListeners cbs e = (cbs, true) := by
    intro cbs
    induction cbs with
    | nil => intro _; rfl
    | cons c rest ih =>
      intro h
      have hc : c e = true := h c (by simp)
      have hrest := ih (fun c2 hc2 => h c2 (by simp [hc2]))
      simp [emitToListeners, hc, hrest]
  have hthrow : ∀ (pre : List Callback) (c : Callback) (post : List Callback),
      (∀ c2 ∈ pre, c2 e = true) → c e = false →
      emitToListeners (pre ++ c :: post) e = (pre ++ [c], false) := by
    intro pre
    induction pre with
    | nil =>
      intro c post _ hc
      simp [emitToListeners, hc]
    | cons c0 rest ih =>
      intro c post h hc
      have hc0 : c0 e = true := h c0 (by simp)
      have hrest := ih c post (fun c2 hc2 => h c2 (by simp [hc2])) hc
      simp [emitToListeners, hc0, hrest]
  constructor
  · intro h
    exact hall _ h
  · intro pre c post hsplit hpre hc
    unfold publish
    rw [hsplit]
    exact hthrow pre c post hpre hc

/-- Witness for publish_delivers_in_order: with a single normal callback
the event is delivered to it and emit completes. -/
theorem publish_delivers_in_order_witness :
    publish hubOk sampleEvent = (listenersFor hubOk sampleEvent.orderId, true) :=
  (publish_delivers_in_order hubOk sampleEvent).1 (by decide)

/-! ### ExecutionService.processOrder as an action trace

processOrder drives one processing attempt of an order.  Its observable
actions, in program order, are: writes of the status onto the in-memory
Order object (updateOrderStatus line order.status = status), publications
of status events (emitStatusUpdate), and writes to the in-memory database
(inMemoryDb.updateOrder, which carries a status field only for the
terminal confirmed and failed updates).  The trace below lists these
actions exactly as the source performs them; the branch taken depends on
the success flag of executeSwap (a failed swap makes processOrder throw
into its catch block).  Subscriber callbacks are assumed to return
normally, and the database is assumed to contain the order (createOrder
runs before the queue starts processing it in server-simple.ts). -/

/-- One observable action of processOrder. -/
inductive Act
  | setStatus (s : OrderStatus)
  | emitStatus (s : OrderStatus)
  | dbUpdate (s : Option OrderStatus)
deriving DecidableEq, Repr

/-- The order as it stands when executeSwap is called: the routing results
are persisted onto it and its status was last set to submitted. -/
def orderAtSubmit (o : Order) (r1 r2 : ℚ) : Order :=
  let q := getBestQuote o.tokenIn o.tokenOut o.amountIn r1 r2
  { o with
    selectedDex := some q.best.dex
    raydiumQuote := some q.raydium.price
    meteoraQuote := some q.meteora.price
    executedPrice := some q.best.price
    status := .submitted }

/-- The action trace of one processOrder attempt.  r1 and r2 are the random
draws of the two venue quotes, randFail and randSlip those of executeSwap,
tx the generated receipt id. -/
def processOrderTrace (o : Order) (r1 r2 randFail randSlip : ℚ)
    (tx : String) : List Act :=
  [Act.setStatus .pending, Act.emitStatus .pending,
   Act.setStatus .routing, Act.emitStatus .routing,
   Act.dbUpdate none,
   Act.emitStatus .routing,
   Act.setStatus .building, Act.emitStatus .building,
   Act.setStatus .submitted, Act.emitStatus .submitted] ++
  (if (executeSwap (getBestQuote o.tokenIn o.tokenOut o.amountIn r1 r2).best.dex
        (orderAtSubmit o r1 r2) randFail randSlip tx).success then
    [Act.setStatus .confirmed, Act.emitStatus .confirmed,
     Act.dbUpdate (some .confirmed)]
  else
    [Act.setStatus .failed, Act.emitStatus .failed,
     Act.dbUpdate (some .failed)])

/-- The statuses of the events published during one processOrder attempt,
in publication order. -/
def emittedStatuses (o : Order) (r1 r2 randFail randSlip : ℚ)
    (tx : String) : List OrderStatus :=
  (processOrderTrace o r1 r2 randFail randSlip tx).filterMap fun a =>
    match a with
    | .emitStatus s => some s
    | _ => none

/-- The success flag of executeSwap is true exactly when the failure draw
misses the 5 percent window. -/
lemma executeSwap_success_iff (dex : Dex) (o : Order) (randFail randSlip : ℚ)
    (tx : String) :
    (executeSwap dex o randFail randSlip tx).success = true ↔
      ¬ randFail < 5 / 100 := by
  unfold executeSwap swapBody
  by_cases h : randFail < 5 / 100 <;> simp [h]

/-- Counterexample to C1 as stated: in a concrete successful attempt the
routing status is emitted twice (once on entering the stage, once when the
venue selection returns), so an event is duplicated for the routing
transition and the emitted sequence is not the five-element sequence of
the claim. -/
theorem status_sequence_duplicate_routing_cex :
    (emittedStatuses sampleOrder 0 0 1 0 "t").count OrderStatus.routing = 2 := by
  have hs : (executeSwap
      (getBestQuote sampleOrder.tokenIn sampleOrder.tokenOut sampleOrder.amountIn
        0 0).best.dex
      (orderAtSubmit sampleOrder 0 0) 1 0 "t").success = true :=
    (executeSwap_success_iff _ _ _ _ _).mpr (by norm_num)
  simp [emittedStatuses, processOrderTrace, hs]

/-- C1 amended: within one processing attempt the emitted statuses follow
the fixed forward order with exactly one event per transition, except that
the routing status is emitted twice in a row; the sequence is
pending, routing, routing, building, submitted and then confirmed or
failed. -/
theorem status_sequence_amended (o : Order) (r1 r2 randFail randSlip : ℚ)
    (tx : String) :
    emittedStatuses o r1 r2 randFail randSlip tx =
      [.pending, .routing, .routing, .building, .submitted, .confirmed] ∨
    emittedStatuses o r1 r2 randFail randSlip tx =
      [.pending, .routing, .routing, .building, .submitted, .failed] := by
  unfold emittedStatuses processOrderTrace
  cases hb : (executeSwap
      (getBestQuote o.tokenIn o.tokenOut o.amountIn r1 r2).best.dex
      (orderAtSubmit o r1 r2) randFail randSlip tx).success
  · right
    simp [hb]
  · left
    simp [hb]

/-- Counterexample to C2 as stated: the first status emitted by a
processing attempt (the retried attempt runs the same processOrder code
path) is pending, not routing. -/
theorem retry_first_status_is_pending_cex :
    (emittedStatuses sampleOrder 0 0 1 0 "t").head? = some OrderStatus.pending ∧
    OrderStatus.pending ≠ OrderStatus.routing := by
  exact ⟨rfl, by decide⟩

/-- C2 amended: a retried job re-enters processOrder from the top, so the
retried attempt restarts the order at pending, with the new routing cycle
firing immediately after: the first two emitted statuses of every attempt
are pending then routing. -/
theorem retry_restarts_at_pending_then_routing (o : Order)
    (r1 r2 randFail randSlip : ℚ) (tx : String) :
    (emittedStatuses o r1 r2 randFail randSlip tx).take 2 =
      [OrderStatus.pending, OrderStatus.routing] := by
  rfl

/-- Checks that every emitted event status equals the status most recently
written onto the in-memory Order object (whose status starts at the first
argument), i.e. that the object is never staler than the event. -/
def objectNeverStaler : OrderStatus → List Act → Bool
  | _, [] => true
  | _, Act.setStatus s :: rest => objectNeverStaler s rest
  | st, Act.emitStatus s :: rest => (s == st) && objectNeverStaler st rest
  | st, Act.dbUpdate _ :: rest => objectNeverStaler st rest

/-- Checks that every emitted event status equals the status most recently
written to the stored (database) order record, whose status starts at the
first argument; a dbUpdate without a status field leaves it unchanged. -/
def storeNeverStaler : OrderStatus → List Act → Bool
  | _, [] => true
  | st, Act.setStatus _ :: rest => storeNeverStaler st rest
  | st, Act.emitStatus s :: rest => (s == st) && storeNeverStaler st rest
  | st, Act.dbUpdate none :: rest => storeNeverStaler st rest
  | _, Act.dbUpdate (some s) :: rest => storeNeverStaler s rest

/-- Counterexample to C7 as stated: the stored order record (the state any
other reader sees, since inMemoryDb keeps copies) is staler than the event
at the routing, building and submitted emissions, because processOrder
never writes those statuses to the store and writes the terminal status
only after emitting; concretely, right after an emitted event the stored
status can differ from the event status. -/
theorem store_status_staler_than_event_cex :
    storeNeverStaler OrderStatus.pending
      (processOrderTrace sampleOrder 0 0 1 0 "t") = false := by
  rfl

/-- C7 amended: every status transition writes the new status onto the
in-memory Order object before emitting the event, so at each emission the
object status equals the event status (never staler); the stored database
record, however, only receives the terminal status, after the terminal
event is emitted. -/
theorem object_status_written_before_emit (o : Order)
    (r1 r2 randFail randSlip : ℚ) (tx : String) :
    objectNeverStaler o.status
      (processOrderTrace o r1 r2 randFail randSlip tx) = true := by
  unfold processOrderTrace
  cases hb : (executeSwap
      (getBestQuote o.tokenIn o.tokenOut o.amountIn r1 r2).best.dex
      (orderAtSubmit o r1 r2) randFail randSlip tx).success
  · simp [hb, objectNeverStaler]
  · simp [hb, objectNeverStaler]

/-! ### SimpleQueueService (src/services/simple-queue.service.ts)

The queue state holds the waiting list (queue), the jobs currently being
processed (the ids in activeJobs, here kept with their job records), and
the completed and failed records.  The cooperative scheduling of the
source yields only at awaits, so each of the following blocks of
synchronous statements is one atomic step:
  - addOrder pushes a waiting job (the id is fresh, modelling uuidv4 in
    server-simple.ts);
  - the processQueue loop shifts the head of the waiting list and
    processJob synchronously marks it active and increments attempts,
    guarded by activeJobs.size < concurrency (the start step);
  - on success processJob records the job completed and leaves the active
    set (complete);
  - on failure with attempts < maxRetries the job returns to the back of
    the waiting list and leaves the active set, after a backoff delay of
    2 ^ (attempts - 1) * 1000 ms (retry);
  - otherwise it is recorded permanently failed with its error
    (permFail). -/

/-- Job states of the QueueJob interface. -/
inductive JobStatus
  | waiting
  | active
  | completed
  | failed
deriving DecidableEq, Repr

/-- The QueueJob interface (the wrapped Order and the timestamp carry no
queue logic and are omitted; the id is the order id). -/
structure QueueJob where
  id : String
  attempts : Nat
  status : JobStatus
  error : Option String := none
deriving DecidableEq, Repr

/-- The mutable state of SimpleQueueService. -/
structure QState where
  queue : List QueueJob
  activeJobs : List QueueJob
  completedJobs : List QueueJob
  failedJobs : List QueueJob
deriving DecidableEq, Repr

/-- The initial queue state: all collections empty. -/
def QState.init : QState := ⟨[], [], [], []⟩

/-- All job ids present anywhere in the queue state. -/
def allIds (s : QState) : List String :=
  (s.queue ++ s.activeJobs ++ s.completedJobs ++ s.failedJobs).map QueueJob.id

/-- Labels of the queue transitions; the retry label records the backoff
delay in milliseconds computed by processJob. -/
inductive QLabel
  | enqueue (id : String)
  | start (j : QueueJob)
  | complete (j : QueueJob)
  | retry (j : QueueJob) (delayMs : Nat)
  | permFail (j : QueueJob) (err : String)

/-- One atomic step of SimpleQueueService, parameterised by the configured
concurrency and maxRetries (config.queue, defaults 10 and 3). -/
inductive QStep (concurrency maxRetries : Nat) :
    QState → QLabel → QState → Prop
  | enqueue (s : QState) (id : String) (hfresh : id ∉ allIds s) :
      QStep concurrency maxRetries s (.enqueue id)
        { s with queue := s.queue ++ [{ id := id, attempts := 0, status := .waiting }] }
  | start (s : QState) (j : QueueJob) (rest : List QueueJob)
      (hq : s.queue = j :: rest)
      (hcap : s.activeJobs.length < concurrency) :
      QStep concurrency maxRetries s (.start j)
        { s with queue := rest,
                 activeJobs := s.activeJobs ++
                   [{ j with attempts := j.attempts + 1, status := .active }] }
  | complete (s : QState) (pre : List QueueJob) (j : QueueJob)
      (post : List QueueJob)
      (ha : s.activeJobs = pre ++ j :: post) :
      QStep concurrency maxRetries s (.complete j)
        { s with activeJobs := pre ++ post,
                 completedJobs := s.completedJobs ++
                   [{ j with status := .completed }] }
  | retry (s : QState) (pre : List QueueJob) (j : QueueJob)
      (post : List QueueJob)
      (ha : s.activeJobs = pre ++ j :: post)
      (hlt : j.attempts < maxRetries) :
      QStep concurrency maxRetries s (.retry j (2 ^ (j.attempts - 1) * 1000))
        { s with activeJobs := pre ++ post,
                 queue := s.queue ++ [{ j with status := .waiting }] }
  | permFail (s : QState) (pre : List QueueJob) (j : QueueJob)
      (post : List QueueJob) (err : String)
      (ha : s.activeJobs = pre ++ j :: post)
      (hge : maxRetries ≤ j.attempts) :
      QStep concurrency maxRetries s (.permFail j err)
        { s with activeJobs := pre ++ post,
                 failedJobs := s.failedJobs ++
                   [{ j with status := .failed, error := some err }] }

/-- Queue states reachable from the empty initial state. -/
def Reachable (concurrency maxRetries : Nat) (s : QState) : Prop :=
  Relation.ReflTransGen
    (fun a b => ∃ l, QStep concurrency maxRetries a l b) QState.init s

/-- SimpleQueueService.getJob: linear search of the waiting, completed and
failed collections, in that order; the active set is not searched. -/
def getJob (s : QState) (orderId : String) : Option QueueJob :=
  match s.queue.find? (fun j => j.id == orderId) with
  | some j => some j
  | none =>
    match s.completedJobs.find? (fun j => j.id == orderId) with
    | some j => some j
    | none => s.failedJobs.find? (fun j => j.id == orderId)

/-- One queue step never pushes the active count above the concurrency
limit: the only step that grows the active set is guarded by a strict
capacity check. -/
lemma active_len_le_step {c m : Nat} {s s2 : QState} {l : QLabel}
    (hst : QStep c m s l s2) (h : s.activeJobs.length ≤ c) :
    s2.activeJobs.length ≤ c := by
  cases hst with
  | enqueue id hfresh => exact h
  | start j rest hq hcap =>
    simp only [List.length_append, List.length_cons, List.length_nil]
    omega
  | complete pre j post ha =>
    simp only [List.length_append]
    rw [ha] at h
    simp only [List.length_append, List.length_cons] at h
    omega
  | retry pre j post ha hlt =>
    simp only [List.length_append]
    rw [ha] at h
    simp only [List.length_append, List.length_cons] at h
    omega
  | permFail pre j post err ha hge =>
    simp only [List.length_append]
    rw [ha] at h
    simp only [List.length_append, List.length_cons] at h
    omega

/-- C4: in every reachable queue state the active set never exceeds the
configured concurrency limit, and a job is started (moved into active
processing) only while the active count is strictly below the limit. -/
theorem queue_concurrency_invariant (c m : Nat) (s : QState)
    (h : Reachable c m s) :
    s.activeJobs.length ≤ c ∧
    ∀ j s2, QStep c m s (.start j) s2 → s.activeJobs.length < c := by
  constructor
  · induction h with
    | refl => simp [QState.init]
    | tail hr hstep ih =>
      obtain ⟨l, hst⟩ := hstep
      exact active_len_le_step hst ih
  · intro j s2 hst
    cases hst with
    | start j rest hq hcap => exact hcap

/-- A sample waiting job for the reachability witnesses. -/
def demoJob0 : QueueJob := { id := "o-1", attempts := 0, status := .waiting }

/-- The sample job after being started once. -/
def demoJob1 : QueueJob := { id := "o-1", attempts := 1, status := .active }

/-- State after enqueueing the sample job. -/
def demoS1 : QState := { queue := [demoJob0], activeJobs := [], completedJobs := [], failedJobs := [] }

/-- State after the sample job is admitted to active processing. -/
def demoS2 : QState := { queue := [], activeJobs := [demoJob1], completedJobs := [], failedJobs := [] }

/-- demoS2 is reachable with the default configuration. -/
lemma demo_reach_s2 : Reachable 10 3 demoS2 := by
  have h1 : QStep 10 3 QState.init (.enqueue "o-1") demoS1 :=
    QStep.enqueue QState.init "o-1" (by simp [allIds, QState.init])
  have h2 : QStep 10 3 demoS1 (.start demoJob0) demoS2 :=
    QStep.start demoS1 demoJob0 [] rfl (by simp [demoS1])
  exact Relation.ReflTransGen.tail
    (Relation.ReflTransGen.tail Relation.ReflTransGen.refl ⟨_, h1⟩) ⟨_, h2⟩

/-- Witness for queue_concurrency_invariant at a concrete reachable state. -/
theorem queue_concurrency_invariant_witness :
    demoS2.activeJobs.length ≤ 10 :=
  (queue_concurrency_invariant 10 3 demoS2 demo_reach_s2).1

/-- Attempt-count invariant of the queue: waiting jobs still have attempts
strictly below the maximum (they were enqueued at 0 or re-queued only when
below it), active jobs are at most at the maximum (they gained one attempt
on starting), and permanently failed jobs are exactly at the maximum. -/
def AttemptsInv (m : Nat) (s : QState) : Prop :=
  (∀ j ∈ s.queue, j.attempts < m) ∧
  (∀ j ∈ s.activeJobs, j.attempts ≤ m) ∧
  (∀ j ∈ s.failedJobs, j.attempts = m)

/-- The attempt-count invariant holds initially. -/
lemma attemptsInv_init (m : Nat) : AttemptsInv m QState.init := by
  refine ⟨?_, ?_, ?_⟩ <;> intro j hj <;> simp [QState.init] at hj

/-- The attempt-count invariant is preserved by every queue step, provided
the configured maximum is at least 1. -/
lemma attemptsInv_step {c m : Nat} {s s2 : QState} {l : QLabel}
    (hm : 1 ≤ m) (hst : QStep c m s l s2) (hinv : AttemptsInv m s) :
    AttemptsInv m s2 := by
  obtain ⟨hq, ha, hf⟩ := hinv
  cases hst with
  | enqueue id hfresh =>
    refine ⟨?_, ha, hf⟩
    intro j hj
    rcases List.mem_append.mp hj with hj | hj
    · exact hq j hj
    · simp at hj
      simp [hj]
      omega
  | start j rest hq2 hcap =>
    refine ⟨?_, ?_, hf⟩
    · intro x hx
      exact hq x (by rw [hq2]; exact List.mem_cons_of_mem j hx)
    · intro x hx
      rcases List.mem_append.mp hx with hx | hx
      · exact ha x hx
      · simp at hx
        have : j.attempts < m := hq j (by rw [hq2]; exact List.mem_cons_self j rest)
        simp [hx]
        omega
  | complete pre j post ha2 =>
    refine ⟨hq, ?_, hf⟩
    intro x hx
    refine ha x ?_
    rw [ha2]
    rcases List.mem_append.mp hx with hx | hx
    · exact List.mem_append.mpr (Or.inl hx)
    · exact List.mem_append.mpr (Or.inr (List.mem_cons_of_mem j hx))
  | retry pre j post ha2 hlt =>
    refine ⟨?_, ?_, hf⟩
    · intro x hx
      rcases List.mem_append.mp hx with hx | hx
      · exact hq x hx
      · simp at hx
        simp [hx, hlt]
    · intro x hx
      refine ha x ?_
      rw [ha2]
      rcases List.mem_append.mp hx with hx | hx
      · exact List.mem_append.mpr (Or.inl hx)
      · exact List.mem_append.mpr (Or.inr (List.mem_cons_of_mem j hx))
  | permFail pre j post err ha2 hge =>
    refine ⟨hq, ?_, ?_⟩
    · intro x hx
      refine ha x ?_
      rw [ha2]
      rcases List.mem_append.mp hx with hx | hx
      · exact List.mem_append.mpr (Or.inl hx)
      · exact List.mem_append.mpr (Or.inr (List.mem_cons_of_mem j hx))
    · intro x hx
      rcases List.mem_append.mp hx with hx | hx
      · exact hf x hx
      · have hjle : j.attempts ≤ m :=
          ha j (by rw [ha2]; exact List.mem_append.mpr (Or.inr (List.mem_cons_self j post)))
        simp at hx
        simp [hx]
        omega

/-- The attempt-count invariant holds in every reachable state. -/
lemma reachable_attemptsInv {c m : Nat} {s : QState} (hm : 1 ≤ m)
    (h : Reachable c m s) : AttemptsInv m s := by
  induction h with
  | refl => exact attemptsInv_init m
  | tail hr hstep ih =>
    obtain ⟨l, hst⟩ := hstep
    exact attemptsInv_step hm hst ih

/-- C5: with a configured maximum of at least one attempt, every job
recorded as permanently failed in a reachable state has attempt count
exactly equal to the configured maximum, and every retry step re-queues
the job after a delay of 1000 ms times 2 raised to (attempts - 1). -/
theorem permfail_attempts_and_retry_delay (c m : Nat) (s : QState)
    (hm : 1 ≤ m) (h : Reachable c m s) :
    (∀ j ∈ s.failedJobs, j.attempts = m) ∧
    (∀ (j : QueueJob) (d : Nat) (s2 : QState),
      QStep c m s (.retry j d) s2 → d = 1000 * 2 ^ (j.attempts - 1)) := by
  refine ⟨(reachable_attemptsInv hm h).2.2, ?_⟩
  intro j d s2 hst
  cases hst with
  | retry pre j post ha hlt => exact Nat.mul_comm _ _

/-- The sample job back on the waiting list after its first failure. -/
def demoJobW1 : QueueJob := { id := "o-1", attempts := 1, status := .waiting }

/-- The sample job active on its second attempt. -/
def demoJobA2 : QueueJob := { id := "o-1", attempts := 2, status := .active }

/-- The sample job waiting after its second failure. -/
def demoJobW2 : QueueJob := { id := "o-1", attempts := 2, status := .waiting }

/-- The sample job active on its third attempt. -/
def demoJobA3 : QueueJob := { id := "o-1", attempts := 3, status := .active }

/-- The sample job recorded permanently failed after three attempts. -/
def demoJobF3 : QueueJob :=
  { id := "o-1", attempts := 3, status := .failed, error := some "network timeout" }

/-- State after the first retry re-queues the job. -/
def demoS3 : QState := { queue := [demoJobW1], activeJobs := [], completedJobs := [], failedJobs := [] }

/-- State during the second attempt. -/
def demoS4 : QState := { queue := [], activeJobs := [demoJobA2], completedJobs := [], failedJobs := [] }

/-- State after the second retry re-queues the job. -/
def demoS5 : QState := { queue := [demoJobW2], activeJobs := [], completedJobs := [], failedJobs := [] }

/-- State during the third attempt. -/
def demoS6 : QState := { queue := [], activeJobs := [demoJobA3], completedJobs := [], failedJobs := [] }

/-- State after the job fails permanently. -/
def demoS7 : QState := { queue := [], activeJobs := [], completedJobs := [], failedJobs := [demoJobF3] }

/-- demoS7 is reachable with the default configuration: the sample job is
enqueued, started, retried twice and then fails permanently. -/
lemma demo_reach_s7 : Reachable 10 3 demoS7 := by
  have h3 : QStep 10 3 demoS2 (.retry demoJob1 (2 ^ (demoJob1.attempts - 1) * 1000)) demoS3 :=
    QStep.retry demoS2 [] demoJob1 [] rfl (by decide)
  have h4 : QStep 10 3 demoS3 (.start demoJobW1) demoS4 :=
    QStep.start demoS3 demoJobW1 [] rfl (by decide)
  have h5 : QStep 10 3 demoS4 (.retry demoJobA2 (2 ^ (demoJobA2.attempts - 1) * 1000)) demoS5 :=
    QStep.retry demoS4 [] demoJobA2 [] rfl (by decide)
  have h6 : QStep 10 3 demoS5 (.start demoJobW2) demoS6 :=
    QStep.start demoS5 demoJobW2 [] rfl (by decide)
  have h7 : QStep 10 3 demoS6 (.permFail demoJobA3 "network timeout") demoS7 :=
    QStep.permFail demoS6 [] demoJobA3 [] "network timeout" rfl (by decide)
  exact Relation.ReflTransGen.tail
    (Relation.ReflTransGen.tail
      (Relation.ReflTransGen.tail
        (Relation.ReflTransGen.tail
          (Relation.ReflTransGen.tail demo_reach_s2 ⟨_, h3⟩) ⟨_, h4⟩) ⟨_, h5⟩)
      ⟨_, h6⟩) ⟨_, h7⟩

/-- Witness for permfail_attempts_and_retry_delay: in the concrete
reachable state demoS7 the permanently failed job has exactly 3 attempts. -/
theorem permfail_attempts_and_retry_delay_witness :
    demoJobF3.attempts = 3 :=
  (permfail_attempts_and_retry_delay 10 3 demoS7 (by norm_num) demo_reach_s7).1
    demoJobF3 (by simp [demoS7])

/-- Uniqueness of job ids across the four queue collections, stated on the
multiset of all ids.  Fresh enqueue ids (uuidv4) keep it an invariant. -/
def IdsNodup (s : QState) : Prop :=
  ((allIds s : List String) : Multiset String).Nodup

/-- The id-uniqueness invariant holds initially. -/
lemma idsNodup_init : IdsNodup QState.init := by
  simp [IdsNodup, allIds, QState.init]

/-- A list whose id multiset equals that of a duplicate-free list is itself
duplicate-free. -/
lemma nodup_of_bag_eq {l1 l2 : List String}
    (hbag : (↑l1 : Multiset String) = (↑l2 : Multiset String))
    (h : (↑l2 : Multiset String).Nodup) : (↑l1 : Multiset String).Nodup := by
  rw [hbag]
  exact h

/-- Appending one fresh element to a duplicate-free bag keeps it
duplicate-free. -/
lemma nodup_of_bag_eq_add {l1 l2 : List String} {a : String}
    (hbag : (↑l1 : Multiset String) = (↑l2 : Multiset String) + {a})
    (h : (↑l2 : Multiset String).Nodup) (ha : a ∉ l2) :
    (↑l1 : Multiset String).Nodup := by
  rw [hbag, Multiset.nodup_add]
  refine ⟨h, Multiset.nodup_singleton a, ?_⟩
  rw [Multiset.disjoint_singleton, Multiset.mem_coe]
  exact ha

/-- The id-uniqueness invariant is preserved by every queue step: enqueue
adds a fresh id and every other step moves one job between collections. -/
lemma idsNodup_step {c m : Nat} {s s2 : QState} {l : QLabel}
    (hst : QStep c m s l s2) (h : IdsNodup s) : IdsNodup s2 := by
  cases hst with
  | enqueue id hfresh =>
    unfold IdsNodup at h ⊢
    refine nodup_of_bag_eq_add ?_ h hfresh
    simp only [allIds, List.map_append, List.map_cons, List.map_nil,
      ← Multiset.coe_add, Multiset.coe_singleton]
    abel
  | start j rest hq2 hcap =>
    unfold IdsNodup at h ⊢
    refine nodup_of_bag_eq ?_ h
    simp only [allIds, hq2, List.map_append, List.map_cons, List.map_nil,
      ← Multiset.coe_add, ← Multiset.cons_coe, Multiset.coe_singleton,
      ← Multiset.singleton_add]
    abel
  | complete pre j post ha2 =>
    unfold IdsNodup at h ⊢
    refine nodup_of_bag_eq ?_ h
    simp only [allIds, ha2, List.map_append, List.map_cons, List.map_nil,
      ← Multiset.coe_add, ← Multiset.cons_coe, Multiset.coe_singleton,
      ← Multiset.singleton_add]
    abel
  | retry pre j post ha2 hlt =>
    unfold IdsNodup at h ⊢
    refine nodup_of_bag_eq ?_ h
    simp only [allIds, ha2, List.map_append, List.map_cons, List.map_nil,
      ← Multiset.coe_add, ← Multiset.cons_coe, Multiset.coe_singleton,
      ← Multiset.singleton_add]
    abel
  | permFail pre j post err ha2 hge =>
    unfold IdsNodup at h ⊢
    refine nodup_of_bag_eq ?_ h
    simp only [allIds, ha2, List.map_append, List.map_cons, List.map_nil,
      ← Multiset.coe_add, ← Multiset.cons_coe, Multiset.coe_singleton,
      ← Multiset.singleton_add]
    abel

/-- The id-uniqueness invariant holds in every reachable state. -/
lemma reachable_idsNodup {c m : Nat} {s : QState} (h : Reachable c m s) :
    IdsNodup s := by
  induction h with
  | refl => exact idsNodup_init
  | tail hr hstep ih =>
    obtain ⟨l, hst⟩ := hstep
    exact idsNodup_step hst ih

/-- C10: in every reachable queue state, a job currently in the active set
is invisible to getJob: the lookup searches only the waiting, completed and
failed collections, and an in-flight job is in none of them, so getJob
returns none for its id. -/
theorem active_job_lookup_none (c m : Nat) (s : QState) (j : QueueJob)
    (h : Reachable c m s) (hj : j ∈ s.activeJobs) :
    getJob s j.id = none := by
  have hn := reachable_idsNodup h
  unfold IdsNodup at hn
  simp only [allIds, List.map_append, ← Multiset.coe_add] at hn
  have h1 := Multiset.nodup_add.mp hn
  have h2 := Multiset.nodup_add.mp h1.1
  have h3 := Multiset.nodup_add.mp h2.1
  have hjA : j.id ∈ (↑(s.activeJobs.map QueueJob.id) : Multiset String) := by
    rw [Multiset.mem_coe]
    exact List.mem_map_of_mem QueueJob.id hj
  have hQ : j.id ∉ s.queue.map QueueJob.id := by
    have := Multiset.disjoint_right.mp h3.2.2 hjA
    rwa [Multiset.mem_coe] at this
  have hC : j.id ∉ s.completedJobs.map QueueJob.id := by
    have hAC := (Multiset.disjoint_add_left.mp h2.2.2).2
    have := Multiset.disjoint_left.mp hAC hjA
    rwa [Multiset.mem_coe] at this
  have hF : j.id ∉ s.failedJobs.map QueueJob.id := by
    have hAF := (Multiset.disjoint_add_left.mp (Multiset.disjoint_add_left.mp h1.2.2).1).2
    have := Multiset.disjoint_left.mp hAF hjA
    rwa [Multiset.mem_coe] at this
  have hfind : ∀ (l : List QueueJob), j.id ∉ l.map QueueJob.id →
      l.find? (fun x => x.id == j.id) = none := by
    intro l hl
    rw [List.find?_eq_none]
    intro x hx hbeq
    exact hl (List.mem_map.mpr ⟨x, hx, by simpa using hbeq⟩)
  unfold getJob
  rw [hfind s.queue hQ, hfind s.completedJobs hC, hfind s.failedJobs hF]

/-- Witness for active_job_lookup_none: in the concrete reachable state
demoS2 the active sample job is not found by getJob. -/
theorem active_job_lookup_none_witness :
    getJob demoS2 demoJob1.id = none :=
  active_job_lookup_none 10 3 demoS2 demoJob1 demo_reach_s2 (by simp [demoS2])

end OrderExec
